import Mathlib

/-!
Verification of the predictive-search interaction controller of the
daphne-blue storefront theme.

The development shallowly embeds the controller's JavaScript source:

* the cancellation-token manager (`createAbortController` in the
  predictive-search component) as a small transition system over issued
  tokens, with network responses as observation events;
* the character-by-character placeholder animation shared by the
  `header-search` and `predictive-search` components (`#advance` /
  `#advancePlaceholder`) as a step function on the animation state;
* the keyboard result-navigation handler (`onSearchKeyDown`);
* the query-dispatch continuation (`#getSearchResults`), the reset /
  empty-state pipeline (`#resetSearch`), and the debounced `search`
  handler as state transformers over an explicit component state, with
  the external section renderer, DOM parsing, and recently-viewed store
  abstracted into an environment record.

Machine integers do not occur; JS numbers used here are small integers and
are modelled as `Int` / `Nat`.  Timer scheduling is modelled by an optional
handle plus a count of live (scheduled, not yet fired or cleared) timers.
-/

set_option maxHeartbeats 1000000

/-! ## Cancellation token manager

`#createAbortController` from the predictive-search component:

```js
#createAbortController() {
  const abortController = new AbortController();
  if (this.#activeFetch) {
    this.#activeFetch.abort();
  }
  this.#activeFetch = abortController;
  return abortController;
}
```

Tokens are numbered in creation order; `aborted` stores each token's
aborted flag, and `active` is the id held in `#activeFetch`. -/

structure TokState where
  aborted : List Bool
  active : Option Nat
deriving Repr, DecidableEq

/-- The aborted flag of token `t`; ids never issued count as aborted. -/
def isAborted (s : TokState) (t : Nat) : Bool :=
  s.aborted.getD t true

/-- JS `token.abort()`: set the aborted flag of token `t`. -/
def abortTok (s : TokState) (t : Nat) : TokState :=
  { s with aborted := s.aborted.set t true }

/-- JS `#createAbortController`: abort the previous `#activeFetch` if one
exists, then install and return a fresh (unaborted) token. -/
def createAbortController (s : TokState) : TokState × Nat :=
  let s1 := match s.active with
    | some p => abortTok s p
    | none => s
  let tid := s1.aborted.length
  ({ aborted := s1.aborted ++ [false], active := some tid }, tid)

/-- Events observable at the token manager: a new query or reset acquires a
token (`create`); a network response for the query holding token `t`
arrives (`respond t`).  The continuation of `#getSearchResults` checks
`abortController.signal.aborted` immediately before morphing the results
subtree, so a response is applied exactly when its token is unaborted at
arrival time. -/
inductive Ev
  | create
  | respond (t : Nat)

/-- One event step: `create` runs `#createAbortController`; `respond t`
applies the response (records `t` in the applied list) iff token `t` is
not aborted at that moment, and is a no-op otherwise. -/
def stepEv : TokState × List Nat → Ev → TokState × List Nat
  | (s, app), .create => ((createAbortController s).1, app)
  | (s, app), .respond t => (s, if isAborted s t then app else app ++ [t])

def initTok : TokState := ⟨[], none⟩

/-- Run a trace of events from the initial controller state. -/
def runTrace (tr : List Ev) : TokState × List Nat :=
  tr.foldl stepEv (initTok, [])

/-- Number of tokens issued along a trace. -/
def countCreates : List Ev → Nat
  | [] => 0
  | .create :: tr => countCreates tr + 1
  | .respond _ :: tr => countCreates tr

/-- Closed form of the token state after `c` creations: all tokens except
the newest are aborted, and the newest is active. -/
def canonicalTok (c : Nat) : TokState :=
  ⟨(List.range c).map (fun i => decide (i + 1 < c)),
   if c = 0 then none else some (c - 1)⟩

theorem countCreates_append (tr ext : List Ev) :
    countCreates (tr ++ ext) = countCreates tr + countCreates ext := by
  induction tr with
  | nil => simp [countCreates]
  | cons e tr ih =>
    cases e with
    | create =>
      rw [show countCreates ((Ev.create :: tr) ++ ext)
            = countCreates (tr ++ ext) + 1 from rfl,
          show countCreates (Ev.create :: tr) = countCreates tr + 1 from rfl, ih]
      omega
    | respond t =>
      rw [show countCreates ((Ev.respond t :: tr) ++ ext)
            = countCreates (tr ++ ext) from rfl,
          show countCreates (Ev.respond t :: tr) = countCreates tr from rfl, ih]

theorem create_canonical (c : Nat) :
    (createAbortController (canonicalTok c)).1 = canonicalTok (c + 1) := by
  cases c with
  | zero => rfl
  | succ n =>
    have e1 : (if n + 1 = 0 then (none : Option Nat) else some (n + 1 - 1))
        = some n := by simp
    have e2 : (if n + 1 + 1 = 0 then (none : Option Nat)
        else some (n + 1 + 1 - 1)) = some (n + 1) := by simp
    simp only [canonicalTok, createAbortController, abortTok, e1, e2]
    refine congrArg₂ TokState.mk ?_ (by simp)
    apply List.ext_getElem
    · simp
    · intro i h1 h2
      simp only [List.length_append, List.length_set, List.length_map,
        List.length_range, List.length_cons, List.length_nil] at h1 h2
      rw [List.getElem_map, List.getElem_range]
      by_cases hi : i < n + 1
      · rw [List.getElem_append_left (by simpa using hi)]
        rw [List.getElem_set]
        by_cases he : n = i
        · subst he
          simp
        · rw [if_neg he, List.getElem_map, List.getElem_range]
          have h3 : i + 1 < n + 1 := by omega
          have h4 : i + 1 < n + 1 + 1 := by omega
          simp [h3, h4]
      · have hie : i = n + 1 := by omega
        subst hie
        rw [List.getElem_append_right (by simp)]
        simp

theorem runTrace_append_single (tr : List Ev) (e : Ev) :
    runTrace (tr ++ [e]) = stepEv (runTrace tr) e := by
  simp [runTrace, List.foldl_append]

/-- The token state after any trace is the canonical state of its creation
count: every superseded token is aborted and only the newest token is
unaborted. -/
theorem runTrace_fst (tr : List Ev) :
    (runTrace tr).1 = canonicalTok (countCreates tr) := by
  induction tr using List.reverseRecOn with
  | nil => rfl
  | append_singleton tr e ih =>
    rw [runTrace_append_single]
    cases e with
    | create =>
      have : (runTrace tr).2 = (runTrace tr).2 := rfl
      cases hr : runTrace tr with
      | mk s app =>
        simp only [stepEv]
        have hs : s = canonicalTok (countCreates tr) := by
          simpa [hr] using ih
        rw [hs, create_canonical, countCreates_append]
        simp [countCreates]
    | respond t =>
      cases hr : runTrace tr with
      | mk s app =>
        simp only [stepEv]
        have hs : s = canonicalTok (countCreates tr) := by
          simpa [hr] using ih
        rw [hs, countCreates_append]
        simp [countCreates]

/-- A token is unaborted in the canonical state exactly when it is the most
recently issued one. -/
theorem unaborted_canonical (c t : Nat) :
    isAborted (canonicalTok c) t = false ↔ (c ≠ 0 ∧ t + 1 = c) := by
  simp only [isAborted, canonicalTok]
  by_cases ht : t < c
  · rw [List.getD_eq_getElem _ _ (by simpa using ht)]
    simp only [List.getElem_map, List.getElem_range]
    constructor
    · intro h
      have := of_decide_eq_false h
      omega
    · intro h
      have : ¬ (t + 1 < c) := by omega
      simpa using this
  · rw [List.getD_eq_default _ _ (by simpa using ht)]
    constructor
    · intro h
      cases h
    · intro h
      omega

/-- Responses applied while extending a trace only ever belong to tokens at
least as new as the newest token of the base trace: the applied list grows
by a suffix whose members `t` satisfy `countCreates tr ≤ t + 1`. -/
theorem applied_append (ext tr : List Ev) :
    ∃ d, (runTrace (tr ++ ext)).2 = (runTrace tr).2 ++ d
      ∧ ∀ t ∈ d, countCreates tr ≤ t + 1 := by
  induction ext generalizing tr with
  | nil => exact ⟨[], by simp, by simp⟩
  | cons e ext ih =>
    obtain ⟨d', hd', hb'⟩ := ih (tr ++ [e])
    have hre : tr ++ e :: ext = (tr ++ [e]) ++ ext := by simp
    rw [hre, hd']
    have hstep : runTrace (tr ++ [e]) = stepEv (runTrace tr) e :=
      runTrace_append_single tr e
    cases e with
    | create =>
      refine ⟨d', ?_, ?_⟩
      · rw [hstep]
        cases hr : runTrace tr with
        | mk s app => simp [stepEv]
      · intro t ht
        have := hb' t ht
        rw [countCreates_append] at this
        simp only [countCreates] at this
        omega
    | respond u =>
      by_cases hu : isAborted (runTrace tr).1 u
      · refine ⟨d', ?_, ?_⟩
        · rw [hstep]
          cases hr : runTrace tr with
          | mk s app =>
            simp only [stepEv]
            rw [hr] at hu
            simp only at hu
            simp [hu]
        · intro t ht
          have := hb' t ht
          rw [countCreates_append] at this
          simpa [countCreates] using this
      · refine ⟨u :: d', ?_, ?_⟩
        · rw [hstep]
          cases hr : runTrace tr with
          | mk s app =>
            simp only [stepEv]
            rw [hr] at hu
            simp only at hu
            simp [hu]
        · intro t ht
          rcases List.mem_cons.1 ht with h | h
          · subst h
            rw [runTrace_fst tr] at hu
            have := (unaborted_canonical (countCreates tr) t).1
              (Bool.not_eq_true _ ▸ by simpa using hu)
            omega
          · have := hb' t h
            rw [countCreates_append] at this
            simpa [countCreates] using this

/-- C1. Last-request-wins: if query A acquires its token (the first
`create` below, token id `countCreates pre`) and query B later acquires its
own token (the second `create`), then once B's token exists A's token is
aborted, and no response event after that point ever applies A's result to
the results subtree — regardless of the order in which responses arrive.
`l` is the list of results applied after B's token was created. -/
theorem claim1_last_request_wins (pre mid post : List Ev) (l : List Nat)
    (h : (runTrace ((pre ++ [Ev.create] ++ mid ++ [Ev.create]) ++ post)).2
      = (runTrace (pre ++ [Ev.create] ++ mid ++ [Ev.create])).2 ++ l) :
    isAborted (runTrace (pre ++ [Ev.create] ++ mid ++ [Ev.create])).1
        (countCreates pre) = true
      ∧ countCreates pre ∉ l := by
  have hc : countCreates (pre ++ [Ev.create] ++ mid ++ [Ev.create])
      = countCreates pre + countCreates mid + 2 := by
    rw [countCreates_append, countCreates_append, countCreates_append]
    simp [countCreates]
    omega
  constructor
  · rw [runTrace_fst]
    by_contra hne
    have hfalse : isAborted
        (canonicalTok (countCreates (pre ++ [Ev.create] ++ mid ++ [Ev.create])))
        (countCreates pre) = false := by
      cases hb : isAborted
          (canonicalTok (countCreates (pre ++ [Ev.create] ++ mid ++ [Ev.create])))
          (countCreates pre)
      · rfl
      · exact absurd hb hne
    have := (unaborted_canonical _ _).1 hfalse
    omega
  · obtain ⟨d, hd, hb⟩ := applied_append post
      (pre ++ [Ev.create] ++ mid ++ [Ev.create])
    rw [hd] at h
    have : l = d := (List.append_cancel_left h).symm
    subst this
    intro hmem
    have := hb _ hmem
    rw [hc] at this
    omega

/-- Witness for C1 at the concrete trace with two queries and a late
response for the first: the superseded token 0 is aborted and is never
applied. -/
theorem claim1_witness :
    ((runTrace ((([] : List Ev) ++ [Ev.create] ++ [] ++ [Ev.create])
        ++ [Ev.respond 0])).2
      = (runTrace (([] : List Ev) ++ [Ev.create] ++ [] ++ [Ev.create])).2
        ++ ([] : List Nat))
    ∧ (isAborted (runTrace (([] : List Ev) ++ [Ev.create] ++ []
        ++ [Ev.create])).1 (countCreates ([] : List Ev)) = true
      ∧ countCreates ([] : List Ev) ∉ ([] : List Nat)) := by
  refine ⟨by decide, claim1_last_request_wins [] [] [Ev.respond 0] [] (by decide)⟩

/-- C2. At most one non-aborted token exists per controller at any
reachable point, and `#createAbortController` aborts the previously active
token before handing out the new one. -/
theorem claim2_at_most_one_unaborted :
    (∀ (tr : List Ev) (i j : Nat),
        isAborted (runTrace tr).1 i = false →
        isAborted (runTrace tr).1 j = false → i = j)
    ∧ (∀ (tr : List Ev) (p : Nat),
        (runTrace tr).1.active = some p →
        isAborted (createAbortController (runTrace tr).1).1 p = true) := by
  constructor
  · intro tr i j hi hj
    rw [runTrace_fst] at hi hj
    have h1 := (unaborted_canonical _ _).1 hi
    have h2 := (unaborted_canonical _ _).1 hj
    omega
  · intro tr p hp
    rw [runTrace_fst] at hp ⊢
    rw [create_canonical]
    by_contra hne
    have hfalse : isAborted (canonicalTok (countCreates tr + 1)) p = false := by
      cases hb : isAborted (canonicalTok (countCreates tr + 1)) p
      · rfl
      · exact absurd hb hne
    have h1 := (unaborted_canonical _ _).1 hfalse
    simp only [canonicalTok] at hp
    by_cases hc : countCreates tr = 0
    · rw [if_pos hc] at hp
      cases hp
    · rw [if_neg hc] at hp
      have : p = countCreates tr - 1 := (Option.some.inj hp).symm
      omega

/-- Witness for C2: after two queries the sole unaborted token is token 1,
and creating a third aborts it. -/
theorem claim2_witness :
    (isAborted (runTrace [Ev.create, Ev.create]).1 1 = false
      ∧ (runTrace [Ev.create, Ev.create]).1.active = some 1)
    ∧ (1 = 1
      ∧ isAborted (createAbortController (runTrace [Ev.create, Ev.create]).1).1 1
          = true) := by
  refine ⟨⟨by decide, by decide⟩,
    claim2_at_most_one_unaborted.1 [Ev.create, Ev.create] 1 1 (by decide) (by decide),
    claim2_at_most_one_unaborted.2 [Ev.create, Ev.create] 1 (by decide)⟩

/-! ## JS string primitives

The JS string operations used by the components, modelled structurally
over the character list of a Lean `String` (all strings involved are
plain text; JS `slice`/`length` code-unit indexing and Lean character
indexing agree on them). -/

/-- JS `String.prototype.trim()`. -/
def jsTrim (s : String) : String :=
  ⟨((s.data.dropWhile Char.isWhitespace).reverse.dropWhile
      Char.isWhitespace).reverse⟩

/-- JS `String.prototype.trimEnd()`. -/
def jsTrimEnd (s : String) : String :=
  ⟨(s.data.reverse.dropWhile Char.isWhitespace).reverse⟩

/-- JS `s.slice(0, n)` for `n ≥ 0`. -/
def jsSlice (s : String) (n : Nat) : String :=
  ⟨s.data.take n⟩

/-- JS `s.endsWith(c)` for a single character `c`. -/
def jsEndsWithChar (s : String) (c : Char) : Bool :=
  s.data.getLast? = some c

/-! ## Placeholder typing animation

The character-stepping logic is textually identical in the two components
(`#advance` in `header-search.js` and `#advancePlaceholder` in the
predictive-search component):

```js
const category = this.#categories[this.#index] || '';
let delay = 85;
if (this.#isDeleting) {
  this.#charIndex -= 1;
  delay = 40;
  if (this.#charIndex <= 0) {
    this.#isDeleting = false;
    this.#index = (this.#index + 1) % this.#categories.length;
    delay = 300;
  }
} else {
  this.#charIndex += 1;
  if (this.#charIndex >= category.length) {
    this.#isDeleting = true;
    delay = 1200;
  }
}
const visibleText = category.slice(0, Math.max(this.#charIndex, 0));
```

`charIndex` is a JS number that is only ever incremented or decremented by
one; it is modelled as `Int` (the decrement is not clamped at zero). -/

structure Anim where
  index : Nat
  charIndex : Int
  isDeleting : Bool
deriving Repr, DecidableEq

/-- One animation step: next state, the visible typed text, and the delay
in milliseconds until the next step. -/
def animStepFull (cats : List String) (a : Anim) : Anim × String × Nat :=
  let category := cats.getD a.index ""
  if a.isDeleting then
    let c := a.charIndex - 1
    if c ≤ 0 then
      (⟨(a.index + 1) % cats.length, c, false⟩,
       jsSlice category (max c 0).toNat, 300)
    else
      (⟨a.index, c, true⟩, jsSlice category (max c 0).toNat, 40)
  else
    let c := a.charIndex + 1
    if (category.length : Int) ≤ c then
      (⟨a.index, c, true⟩, jsSlice category (max c 0).toNat, 1200)
    else
      (⟨a.index, c, false⟩, jsSlice category (max c 0).toNat, 85)

/-- The animation state after one step. -/
def animStep (cats : List String) (a : Anim) : Anim :=
  (animStepFull cats a).1

/-- The animation state after `k` steps. -/
def advanceN (cats : List String) : Nat → Anim → Anim
  | 0, a => a
  | k + 1, a => animStep cats (advanceN cats k a)

theorem advanceN_add (cats : List String) (m n : Nat) (a : Anim) :
    advanceN cats (m + n) a = advanceN cats n (advanceN cats m a) := by
  induction n with
  | zero => rfl
  | succ n ih => rw [show m + (n + 1) = (m + n) + 1 from rfl]
                 simp only [advanceN, ih]

theorem animStep_delete_wrap (cats : List String) (a : Anim)
    (hd : a.isDeleting = true) (hz : a.charIndex - 1 ≤ 0) :
    animStep cats a = ⟨(a.index + 1) % cats.length, a.charIndex - 1, false⟩ := by
  simp [animStep, animStepFull, hd, hz]

theorem animStep_delete (cats : List String) (a : Anim)
    (hd : a.isDeleting = true) (hz : ¬ a.charIndex - 1 ≤ 0) :
    animStep cats a = ⟨a.index, a.charIndex - 1, true⟩ := by
  simp [animStep, animStepFull, hd, hz]

theorem animStep_type_hold (cats : List String) (a : Anim)
    (hd : a.isDeleting = false)
    (hz : ((cats.getD a.index "").length : Int) ≤ a.charIndex + 1) :
    animStep cats a = ⟨a.index, a.charIndex + 1, true⟩ := by
  simp [animStep, animStepFull, hd, hz, -List.getD_eq_getElem?_getD]

theorem animStep_type (cats : List String) (a : Anim)
    (hd : a.isDeleting = false)
    (hz : ¬ ((cats.getD a.index "").length : Int) ≤ a.charIndex + 1) :
    animStep cats a = ⟨a.index, a.charIndex + 1, false⟩ := by
  simp [animStep, animStepFull, hd, hz, -List.getD_eq_getElem?_getD]

/-- The animation-state invariant maintained by `animStep` when every
category string is nonempty: the index stays in range, and `charIndex`
stays strictly below the category length while typing and within
`[1, length]` while deleting. -/
def AnimInv (cats : List String) (a : Anim) : Prop :=
  a.index < cats.length ∧ 0 ≤ a.charIndex ∧
    (a.isDeleting = true →
      1 ≤ a.charIndex ∧ a.charIndex ≤ ((cats.getD a.index "").length : Int)) ∧
    (a.isDeleting = false → a.charIndex < ((cats.getD a.index "").length : Int))

theorem getD_mem {l : List String} {i : Nat} (h : i < l.length) :
    l.getD i "" ∈ l := by
  rw [List.getD_eq_getElem _ _ h]
  exact List.getElem_mem h

theorem animInv_step (cats : List String) (hne : cats ≠ [])
    (hall : ∀ c ∈ cats, 0 < c.length) (a : Anim) (ha : AnimInv cats a) :
    AnimInv cats (animStep cats a) := by
  have hlen : 0 < cats.length := List.length_pos.mpr hne
  obtain ⟨hidx, hpos, hdel, htyp⟩ := ha
  cases hd : a.isDeleting with
  | true =>
    obtain ⟨h1, h2⟩ := hdel hd
    by_cases hz : a.charIndex - 1 ≤ 0
    · rw [animStep_delete_wrap cats a hd hz]
      have hidx' : (a.index + 1) % cats.length < cats.length :=
        Nat.mod_lt _ hlen
      have hc := hall _ (getD_mem hidx')
      exact ⟨hidx', by dsimp only; omega, by simp,
        fun _ => by dsimp only at *; omega⟩
    · rw [animStep_delete cats a hd hz]
      exact ⟨hidx, by dsimp only; omega,
        fun _ => by dsimp only at *; omega, by simp⟩
  | false =>
    have h1 := htyp hd
    by_cases hz : ((cats.getD a.index "").length : Int) ≤ a.charIndex + 1
    · rw [animStep_type_hold cats a hd hz]
      exact ⟨hidx, by dsimp only; omega,
        fun _ => by dsimp only at *; omega, by simp⟩
    · rw [animStep_type cats a hd hz]
      exact ⟨hidx, by dsimp only; omega, by simp,
        fun _ => by dsimp only at *; omega⟩

theorem animInv_init (cats : List String) (hne : cats ≠ [])
    (hall : ∀ c ∈ cats, 0 < c.length) : AnimInv cats ⟨0, 0, false⟩ := by
  have hlen : 0 < cats.length := List.length_pos.mpr hne
  have := hall _ (getD_mem hlen)
  exact ⟨hlen, le_refl _, by simp, fun _ => by dsimp only at *; omega⟩

theorem animInv_advanceN (cats : List String) (hne : cats ≠ [])
    (hall : ∀ c ∈ cats, 0 < c.length) (k : Nat) :
    AnimInv cats (advanceN cats k ⟨0, 0, false⟩) := by
  induction k with
  | zero => exact animInv_init cats hne hall
  | succ k ih => exact animInv_step cats hne hall _ ih

/-- Typing phase: starting a category at `charIndex 0`, each of the first
`L - 1` steps stays in typing mode with `charIndex = m`. -/
theorem advanceN_typing (cats : List String) (i : Nat)
    (m : Nat) (hm : m < (cats.getD i "").length) :
    advanceN cats m ⟨i, 0, false⟩ = ⟨i, (m : Int), false⟩ := by
  induction m with
  | zero => rfl
  | succ m ih =>
    have hm' : m < (cats.getD i "").length := by omega
    rw [show advanceN cats (m + 1) ⟨i, 0, false⟩
          = animStep cats (advanceN cats m ⟨i, 0, false⟩) from rfl,
        ih hm']
    rw [animStep_type cats _ rfl (by dsimp only; omega)]
    simp only [Anim.mk.injEq]
    refine ⟨trivial, ?_, trivial⟩
    push_cast
    ring

/-- Typing phase end: after `L` steps the full category is typed and the
engine holds, switching to deleting mode. -/
theorem advanceN_typing_full (cats : List String) (i : Nat)
    (hL : 0 < (cats.getD i "").length) :
    advanceN cats (cats.getD i "").length ⟨i, 0, false⟩
      = ⟨i, ((cats.getD i "").length : Int), true⟩ := by
  obtain ⟨L, hLe⟩ : ∃ L, (cats.getD i "").length = L + 1 :=
    ⟨(cats.getD i "").length - 1, by omega⟩
  rw [hLe,
      show advanceN cats (L + 1) ⟨i, 0, false⟩
        = animStep cats (advanceN cats L ⟨i, 0, false⟩) from rfl,
      advanceN_typing cats i L (by omega),
      animStep_type_hold cats _ rfl (by dsimp only; omega)]
  simp only [Anim.mk.injEq]
  refine ⟨trivial, ?_, trivial⟩
  push_cast
  ring

/-- Deleting phase: each of the first `L - 1` deleting steps decrements
`charIndex`, staying in deleting mode. -/
theorem advanceN_deleting (cats : List String) (i : Nat)
    (m : Nat) (hm : m < (cats.getD i "").length) :
    advanceN cats m ⟨i, ((cats.getD i "").length : Int), true⟩
      = ⟨i, ((cats.getD i "").length : Int) - m, true⟩ := by
  induction m with
  | zero => simp [advanceN]
  | succ m ih =>
    have hm' : m < (cats.getD i "").length := by omega
    rw [show advanceN cats (m + 1) ⟨i, ((cats.getD i "").length : Int), true⟩
          = animStep cats (advanceN cats m
              ⟨i, ((cats.getD i "").length : Int), true⟩) from rfl,
        ih hm']
    rw [animStep_delete cats _ rfl (by dsimp only; omega)]
    simp only [Anim.mk.injEq]
    refine ⟨trivial, ?_, trivial⟩
    push_cast
    ring

/-- Deleting phase end: after `L` deleting steps `charIndex` is back to 0
and the index has advanced to the next category modulo the count. -/
theorem advanceN_deleting_full (cats : List String) (i : Nat)
    (hL : 0 < (cats.getD i "").length) :
    advanceN cats (cats.getD i "").length
        ⟨i, ((cats.getD i "").length : Int), true⟩
      = ⟨(i + 1) % cats.length, 0, false⟩ := by
  obtain ⟨L, hLe⟩ : ∃ L, (cats.getD i "").length = L + 1 :=
    ⟨(cats.getD i "").length - 1, by omega⟩
  have hdel := advanceN_deleting cats i L (by omega)
  rw [hLe] at hdel ⊢
  rw [show advanceN cats (L + 1) ⟨i, ((L + 1 : Nat) : Int), true⟩
        = animStep cats (advanceN cats L ⟨i, ((L + 1 : Nat) : Int), true⟩)
        from rfl,
      hdel,
      animStep_delete_wrap cats _ rfl (by dsimp only; omega)]
  simp only [Anim.mk.injEq]
  refine ⟨trivial, ?_, trivial⟩
  push_cast
  ring

/-- C4. Placeholder animation invariant and full cycle: for categories as
produced by the components' parsers (a nonempty list of nonempty strings),
`charIndex` stays within `[0, length(current category)]` at every step
reachable from the initial state, and a full type→hold→delete→advance
cycle of `2 * length` steps starting a category at `charIndex 0` ends at
`charIndex 0` with the category index advanced modulo the count. -/
theorem claim4_placeholder_invariant (cats : List String) (hne : cats ≠ [])
    (hall : ∀ c ∈ cats, 0 < c.length) :
    (∀ k : Nat,
        0 ≤ (advanceN cats k ⟨0, 0, false⟩).charIndex
        ∧ (advanceN cats k ⟨0, 0, false⟩).charIndex
            ≤ ((cats.getD (advanceN cats k ⟨0, 0, false⟩).index "").length : Int))
    ∧ (∀ i : Nat, i < cats.length →
        advanceN cats (2 * (cats.getD i "").length) ⟨i, 0, false⟩
          = ⟨(i + 1) % cats.length, 0, false⟩) := by
  constructor
  · intro k
    obtain ⟨hidx, hpos, hdel, htyp⟩ := animInv_advanceN cats hne hall k
    refine ⟨hpos, ?_⟩
    cases hd : (advanceN cats k ⟨0, 0, false⟩).isDeleting
    · have := htyp hd
      omega
    · have := hdel hd
      omega
  · intro i hi
    have hL := hall _ (getD_mem hi)
    rw [show 2 * (cats.getD i "").length
          = (cats.getD i "").length + (cats.getD i "").length by ring,
        advanceN_add, advanceN_typing_full cats i hL,
        advanceN_deleting_full cats i hL]

/-- Witness for C4 on the concrete category list `["ab", "c"]`: the
hypotheses hold and a full cycle on category 0 (length 2, 4 steps) lands
on category 1 at `charIndex 0`. -/
theorem claim4_witness :
    ((["ab", "c"] : List String) ≠ []
      ∧ (∀ c ∈ (["ab", "c"] : List String), 0 < c.length))
    ∧ advanceN ["ab", "c"] (2 * ((["ab", "c"] : List String).getD 0 "").length)
        ⟨0, 0, false⟩
      = ⟨(0 + 1) % (["ab", "c"] : List String).length, 0, false⟩ := by
  refine ⟨⟨by decide, by decide⟩, ?_⟩
  exact (claim4_placeholder_invariant ["ab", "c"] (by decide) (by decide)).2 0
    (by decide)

/-! ## The header-search component

`header-search.js` renders the animated placeholder into a text node.
Relevant source:

```js
this.#prefix = (this.dataset.placeholderPrefix || '').trim();
this.#categories = this.#getCategories();
...
if (!this.#categories.length) {
  this.refs.placeholder.textContent = this.#prefix;
  return;
}
if (prefersReducedMotion() || this.#categories.length === 1) {
  this.refs.placeholder.textContent = this.#buildText(this.#categories[0] || '');
  return;
}
... listeners ...
this.#resume();
```

The dataset attribute `data-placeholder-categories` is JSON; a successful
parse to an array is modelled as `some` of the string list, and a missing
attribute, invalid JSON or a non-array value as `none`. -/

/-- JS `#getCategories` of `header-search.js`. -/
def getCategories (parsed : Option (List String)) : List String :=
  match parsed with
  | some l => (l.map jsTrim).filter (fun c => c ≠ "")
  | none => []

/-- JS `#buildText` of `header-search.js`. -/
def buildText (pfx typed : String) : String :=
  if pfx = "" then typed
  else
    let spacer := if jsEndsWithChar pfx ' ' || typed = "" then "" else " "
    jsTrimEnd (pfx ++ spacer ++ typed)

/-- State of a `header-search` element: animation state, the pending timer
handle, the number of live (scheduled, not yet fired or cleared) timers,
and the placeholder text node content. -/
structure HState where
  anim : Anim
  timeout : Option Nat
  liveTimers : Nat
  text : String
deriving Repr, DecidableEq

/-- JS `#advance` of `header-search.js`: one animation step, rendering the
visible text and scheduling the next step under a fresh handle `h`. -/
def headerAdvance (cats : List String) (pfx : String) (h : Nat)
    (s : HState) : HState :=
  let (a, typed, _delay) := animStepFull cats s.anim
  { anim := a, text := buildText pfx typed,
    timeout := some h, liveTimers := s.liveTimers + 1 }

/-- JS `#stop` of `header-search.js`: clear the pending timer, if any. -/
def headerStop (s : HState) : HState :=
  match s.timeout with
  | some _ => { s with timeout := none, liveTimers := s.liveTimers - 1 }
  | none => s

/-- JS `#resume` of `header-search.js`; the second component records whether a
new timer was scheduled. -/
def headerResume (cats : List String) (pfx : String) (h : Nat)
    (s : HState) : HState × Bool :=
  if s.timeout.isSome then (s, false)
  else (headerAdvance cats pfx h s, true)

/-- The placeholder-rendering part of `connectedCallback` of
`header-search.js`, starting from the freshly constructed field values;
`t0` is the initial text content of the placeholder node. -/
def headerConnected (parsedCats : Option (List String)) (pfxRaw : String)
    (reducedMotion : Bool) (h : Nat) (t0 : String) : HState × Bool :=
  let pfx := jsTrim pfxRaw
  let cats := getCategories parsedCats
  let init : HState := ⟨⟨0, 0, false⟩, none, 0, t0⟩
  if cats.length = 0 then ({ init with text := pfx }, false)
  else if reducedMotion || cats.length = 1 then
    ({ init with text := buildText pfx (cats.getD 0 "") }, false)
  else headerResume cats pfx h init

/-- The header placeholder text rendered at animation step `n + 1` (the
`n+1`-st execution of `#advance` from the initial animation state). -/
def headerTextAfter (cats : List String) (pfx : String) (n : Nat) : String :=
  buildText pfx (animStepFull cats (advanceN cats (n - 1) ⟨0, 0, false⟩)).2.1

/-- C5, counterexample. With categories `["shoes", "bags"]` and prefix
`"Search for "` (trimmed on setup, exactly as `connectedCallback` does),
the text rendered at the fifth animation step is not `"Search for shoe"`:
the fifth step types the fifth character of `"shoes"`, so the full word is
visible. -/
theorem claim5_counterexample :
    headerTextAfter ["shoes", "bags"] (jsTrim "Search for ") 5
      ≠ "Search for shoe" := by decide

/-- C5, amended. After 5 animation steps from the initial state the
rendered placeholder text equals `"Search for shoes"`. -/
theorem claim5_amended :
    headerTextAfter ["shoes", "bags"] (jsTrim "Search for ") 5
      = "Search for shoes" := by decide

/-! ## The predictive-search component

State of a `predictive-search-component` element.  `resultsMarkup` is the
content of the `predictiveSearchResults` subtree; `resultCount` the number
of result items the navigation getter finds in it, and `selectedIndex` the
index of the item carrying `aria-selected="true"` (−1 when none); both are
re-derived from the subtree, so a morph of the subtree re-derives them from
the new markup.  `placeholderText` is the input's `placeholder` attribute.
`focused` records whether `document.activeElement` is the search input. -/

structure PState where
  resultsMarkup : String
  resultCount : Nat
  searchValue : String
  resetButtonHidden : Bool
  selectedIndex : Int
  anim : Anim
  placeholderText : String
  timeout : Option Nat
  liveTimers : Nat
  focused : Bool
  dropdownOpen : Bool
  scrollTop : Nat
deriving Repr, DecidableEq

/-- Placeholder configuration computed by `#setupPlaceholderAnimation`:
the reduced-motion preference, parsed categories, trimmed placeholder
string `pfx` (JS `#placeholderPrefix`), and the original placeholder
attribute value (JS `#placeholderOriginal`). -/
structure PCfg where
  reducedMotion : Bool
  categories : List String
  pfx : String
  original : String
deriving Repr, DecidableEq

/-- External collaborators of the reset / query pipelines:
`parsedEmptySection` is the result of parsing the empty-state response and
querying `.predictive-search-empty-section` (`none` when absent);
`viewedProducts` is `RecentlyViewed.getProducts()`; `recentlyViewedMarkup`
the markup fetched for them (`none` when falsy); `merge` prepends the
recently-viewed children into the empty-state fragment; `countItems` and
`selectedOf` re-derive `resultCount` / `selectedIndex` from morphed
markup. -/
structure Env where
  cfg : PCfg
  parsedEmptySection : Option String
  viewedProducts : List String
  recentlyViewedMarkup : Option String
  merge : String → String → String
  countItems : String → Nat
  selectedOf : String → Int

/-- JS `#buildPlaceholder` of the predictive-search component. -/
def buildPlaceholder (pfx typed : String) : String :=
  let spacer := if pfx ≠ "" ∧ ¬ jsEndsWithChar pfx ' ' then " " else ""
  jsTrimEnd (pfx ++ spacer ++ typed)

/-- JS `#getPlaceholderCategories`: parse the dataset JSON when it yields an
array, otherwise fall back to the category-link texts in the DOM. -/
def getPlaceholderCategories (dataCats : Option (List String))
    (domCats : List String) : List String :=
  match dataCats with
  | some l => (l.map jsTrim).filter (fun c => c ≠ "")
  | none => (domCats.map jsTrim).filter (fun c => c ≠ "")

/-- JS `#shouldAnimatePlaceholder`. -/
def shouldAnimatePlaceholder (cfg : PCfg) (s : PState) : Bool :=
  s.searchValue.length == 0 && !s.focused && decide (0 < cfg.categories.length)

/-- JS `#stopPlaceholderAnimation`: clear the pending timer, if any. -/
def stopPlaceholderAnimation (s : PState) : PState :=
  match s.timeout with
  | some _ => { s with timeout := none, liveTimers := s.liveTimers - 1 }
  | none => s

/-- JS `#pausePlaceholderAnimation`: stop, and restore the original
placeholder when the input is empty. -/
def pausePlaceholderAnimation (cfg : PCfg) (s : PState) : PState :=
  let s1 := stopPlaceholderAnimation s
  if s1.searchValue.length = 0 then { s1 with placeholderText := cfg.original }
  else s1

/-- JS `#resetPlaceholderAnimation`. -/
def resetPlaceholderAnimation (s : PState) : PState :=
  { s with anim := ⟨0, 0, false⟩ }

/-- JS `#advancePlaceholder`: pause when no longer eligible, else perform one
animation step, render the placeholder, and schedule the next step under
the fresh handle `h`.  The second component records whether a new timer
was scheduled. -/
def advancePlaceholder (cfg : PCfg) (h : Nat) (s : PState) : PState × Bool :=
  if ¬ shouldAnimatePlaceholder cfg s then (pausePlaceholderAnimation cfg s, false)
  else
    let (a, typed, _delay) := animStepFull cfg.categories s.anim
    ({ s with anim := a, placeholderText := buildPlaceholder cfg.pfx typed,
              timeout := some h, liveTimers := s.liveTimers + 1 }, true)

/-- JS `#resumePlaceholderAnimation`; the second component records whether a
new timer was scheduled. -/
def resumePlaceholderAnimation (cfg : PCfg) (h : Nat) (s : PState) :
    PState × Bool :=
  if cfg.reducedMotion then (s, false)
  else if ¬ shouldAnimatePlaceholder cfg s then
    (pausePlaceholderAnimation cfg s, false)
  else if s.timeout.isSome then (s, false)
  else advancePlaceholder cfg h s

/-- JS `#setupPlaceholderAnimation`, from the raw dataset prefix and the
already-computed category list.  Returns the computed configuration, the
state after setup, and whether a timer was scheduled.  JS
`(dataset.placeholderPrefix || original || '').trim()` falls through empty
strings. -/
def setupPlaceholderAnimation (dataPfx : String) (cats : List String)
    (reducedMotion : Bool) (h : Nat) (s : PState) : PCfg × PState × Bool :=
  let original := s.placeholderText
  let pfx := jsTrim (if dataPfx ≠ "" then dataPfx else original)
  let cfg : PCfg := ⟨reducedMotion, cats, pfx, original⟩
  if cats.length = 0 then (cfg, s, false)
  else if reducedMotion || cats.length = 1 then
    (cfg, { s with placeholderText := buildPlaceholder pfx (cats.getD 0 "") },
     false)
  else
    let r := resumePlaceholderAnimation cfg h s
    (cfg, r.1, r.2)

/-- The `#currentIndex` setter: a no-op when the navigation getter finds no
items; otherwise it marks exactly the item at index `i` selected (an index
matching no item clears the selection) and focuses the search input. -/
def setCurrentIndex (s : PState) (i : Int) : PState :=
  if s.resultCount = 0 then s
  else
    { s with
      selectedIndex := if 0 ≤ i ∧ i < (s.resultCount : Int) then i else -1,
      focused := true }

/-- The morph + post-processing tail of `#resetSearch` once the merged
empty-state fragment is available and the token is still unaborted:
morph the results subtree (re-deriving the navigation view from the new
markup), reassert the dropdown state, reset scroll positions, reset the
placeholder animation state, and resume the placeholder animation. -/
def applyEmptyState (env : Env) (h : Nat) (frag : String) (s : PState) :
    PState :=
  let s1 := { s with resultsMarkup := frag,
                     resultCount := env.countItems frag,
                     selectedIndex := env.selectedOf frag }
  let s2 := { s1 with scrollTop := 0 }
  let s3 := resetPlaceholderAnimation s2
  (resumePlaceholderAnimation env.cfg h s3).1

/-- JS `#resetSearch`, run to completion: clear the selection, the input
value and the reset button, fetch and parse the empty-state section
(throwing `No empty section markup found` when the expected element is
absent — returned as `some` error), merge in the recently-viewed fragment
when products exist (silently returning when its markup is falsy), and —
only if the token acquired at the start was not superseded meanwhile
(`aborted`) — apply the merged fragment.  `h` is the timer handle used if
the placeholder animation resumes. -/
def resetSearchRun (env : Env) (aborted : Bool) (h : Nat) (s : PState) :
    PState × Option String :=
  let s1 := setCurrentIndex s (-1)
  let s2 := { s1 with searchValue := "" }
  let s3 := { s2 with resetButtonHidden := true }
  match env.parsedEmptySection with
  | none => (s3, some "No empty section markup found")
  | some emptyFrag =>
    if 0 < env.viewedProducts.length then
      match env.recentlyViewedMarkup with
      | none => (s3, none)
      | some recent =>
        let frag := env.merge emptyFrag recent
        if aborted then (s3, none)
        else (applyEmptyState env h frag s3, none)
    else
      if aborted then (s3, none)
      else (applyEmptyState env h emptyFrag s3, none)

/-- The public debounced `resetSearch(keepFocus = true)`: focus the input
when `keepFocus`, then run `#resetSearch`. -/
def resetSearch (env : Env) (aborted : Bool) (h : Nat) (keepFocus : Bool)
    (s : PState) : PState × Option String :=
  let s1 := if keepFocus then { s with focused := true } else s
  resetSearchRun env aborted h s1

/-- The fulfilled continuation of `#getSearchResults`:

```js
.then((resultsMarkup) => {
  if (!resultsMarkup) return;
  if (abortController.signal.aborted) return;
  morph(predictiveSearchResults, resultsMarkup);
  this.#syncDropdownState();
  this.#resetScrollPositions();
})
```

Empty markup and a superseded token are silent no-ops; no error is ever
raised by this path (the `Option String` error component is always
`none`). -/
def getSearchResultsThen (env : Env) (resultsMarkup : String)
    (aborted : Bool) (s : PState) : PState × Option String :=
  if resultsMarkup = "" then (s, none)
  else if aborted then (s, none)
  else
    ({ s with resultsMarkup := resultsMarkup,
              resultCount := env.countItems resultsMarkup,
              selectedIndex := env.selectedOf resultsMarkup,
              scrollTop := 0 }, none)

/-- The action launched by the debounced `search` handler after its guards:
nothing, the reset path, or a query dispatch for a term. -/
inductive SearchEffect
  | noop
  | resetPath
  | dispatch (term : String)
deriving Repr, DecidableEq

/-- The debounced `search` handler body.  `inputType` is the event's
`inputType` field (`none` when absent); JS `if (!event.inputType) return`
ignores events whose `inputType` is absent or empty. -/
def search (inputType : Option String) (s : PState) : PState × SearchEffect :=
  if inputType.getD "" = "" then (s, .noop)
  else
    let searchTerm := jsTrim s.searchValue
    let s1 := setCurrentIndex s (-1)
    if searchTerm.length = 0 then (s1, .resetPath)
    else ({ s1 with resetButtonHidden := false }, .dispatch searchTerm)

/-! ## Keyboard result navigation

`onSearchKeyDown`, restricted to the navigation keys (Escape routes to
the reset path and Enter navigates the page; neither changes the
selection index synchronously).  The handler returns early when there are
no result items or for ArrowLeft / ArrowRight; otherwise it computes the
next index and assigns it through the `#currentIndex` setter. -/

inductive NavKey
  | arrowDown
  | arrowUp
  | tab (shift : Bool)
  | arrowLeft
  | arrowRight
deriving Repr, DecidableEq

/-- The effective selection index (as re-derived by the getter) after
`onSearchKeyDown` handles key `k` with `count` result items and current
index `index`. -/
def onSearchKeyDown (count : Nat) (index : Int) (k : NavKey) : Int :=
  if count = 0 then index
  else
    let setIdx := fun (v : Int) =>
      if 0 ≤ v ∧ v < (count : Int) then v else -1
    match k with
    | .arrowLeft => index
    | .arrowRight => index
    | .arrowDown => setIdx (if index < (count : Int) - 1 then index + 1 else 0)
    | .tab true => setIdx (if 0 < index then index - 1 else (count : Int) - 1)
    | .tab false => setIdx (if index < (count : Int) - 1 then index + 1 else 0)
    | .arrowUp => setIdx (if 0 < index then index - 1 else (count : Int) - 1)

/-- A concrete predictive-search component state used by concrete
instantiations: empty results, empty input, original placeholder
`"Search"`. -/
def sampleState : PState :=
  { resultsMarkup := "", resultCount := 0, searchValue := "",
    resetButtonHidden := true, selectedIndex := -1,
    anim := ⟨0, 0, false⟩, placeholderText := "Search",
    timeout := none, liveTimers := 0, focused := false,
    dropdownOpen := false, scrollTop := 0 }

/-- A concrete environment whose empty-state response lacks the expected
section element. -/
def sampleEnv : Env :=
  { cfg := ⟨false, [], "", ""⟩, parsedEmptySection := none,
    viewedProducts := [], recentlyViewedMarkup := none,
    merge := fun a _ => a, countItems := fun _ => 0,
    selectedOf := fun _ => -1 }

/-- C3, counterexample. With zero result items, `onSearchKeyDown` returns
before the key switch, so ArrowDown leaves the index at -1 instead of
setting it to 0 as the claim states for `count = 0`. -/
theorem claim3_counterexample :
    onSearchKeyDown 0 (-1) NavKey.arrowDown = -1
      ∧ ((-1 : Int) ≠ 0) := by decide

/-- C3, amended. When `count = 0` every navigation key is ignored and the
index is unchanged; otherwise ArrowDown / forward-Tab move to
`(index + 1) mod count` (0 from -1), ArrowUp / shift-Tab move to
`(index - 1 + count) mod count` for `index ≥ 0` and to `count - 1` from
-1, and the index always stays in `[-1, count - 1]`. -/
theorem claim3_amended (count : Nat) (index : Int) (k : NavKey)
    (h1 : -1 ≤ index) (h2 : index ≤ (count : Int) - 1) :
    (-1 ≤ onSearchKeyDown count index k
      ∧ onSearchKeyDown count index k ≤ (count : Int) - 1)
    ∧ (count = 0 → onSearchKeyDown count index k = index)
    ∧ (0 < count → (k = NavKey.arrowDown ∨ k = NavKey.tab false) →
        onSearchKeyDown count index k = (index + 1) % (count : Int))
    ∧ (0 < count → (k = NavKey.arrowUp ∨ k = NavKey.tab true) →
        onSearchKeyDown count index k
          = if index = -1 then (count : Int) - 1
            else (index - 1 + (count : Int)) % (count : Int)) := by
  by_cases hc : count = 0
  · subst hc
    simp only [onSearchKeyDown, if_pos rfl]
    exact ⟨⟨h1, h2⟩, fun _ => rfl, fun h0 => absurd h0 (by omega),
      fun h0 => absurd h0 (by omega)⟩
  · have hcpos : (1 : Int) ≤ (count : Int) := by
      have := Nat.pos_of_ne_zero hc
      omega
    have hdown : onSearchKeyDown count index NavKey.arrowDown
        = (index + 1) % (count : Int) := by
      simp only [onSearchKeyDown, if_neg hc]
      by_cases hlt : index < (count : Int) - 1
      · rw [if_pos hlt, if_pos (by omega)]
        rw [Int.emod_eq_of_lt (by omega) (by omega)]
      · rw [if_neg hlt, if_pos (by omega)]
        have he : index + 1 = (count : Int) := by omega
        rw [he, Int.emod_self]
    have hup : onSearchKeyDown count index NavKey.arrowUp
        = if index = -1 then (count : Int) - 1
          else (index - 1 + (count : Int)) % (count : Int) := by
      simp only [onSearchKeyDown, if_neg hc]
      by_cases hpos : 0 < index
      · rw [if_pos hpos, if_pos (by omega), if_neg (by omega)]
        rw [show index - 1 + (count : Int) = index - 1 + (count : Int) * 1
              by ring,
            Int.add_mul_emod_self_left,
            Int.emod_eq_of_lt (by omega) (by omega)]
      · rw [if_neg hpos, if_pos (by omega)]
        by_cases hm : index = -1
        · rw [if_pos hm]
        · have h0 : index = 0 := by omega
          rw [if_neg hm, h0]
          rw [show (0 : Int) - 1 + (count : Int) = (count : Int) - 1 by ring,
            Int.emod_eq_of_lt (by omega) (by omega)]
    have htabf : onSearchKeyDown count index (NavKey.tab false)
        = onSearchKeyDown count index NavKey.arrowDown := by
      simp only [onSearchKeyDown, if_neg hc]
    have htabt : onSearchKeyDown count index (NavKey.tab true)
        = onSearchKeyDown count index NavKey.arrowUp := by
      simp only [onSearchKeyDown, if_neg hc]
    refine ⟨?_, fun h0 => absurd h0 hc, ?_, ?_⟩
    · cases k with
      | arrowLeft =>
        simp only [onSearchKeyDown, if_neg hc]
        exact ⟨h1, h2⟩
      | arrowRight =>
        simp only [onSearchKeyDown, if_neg hc]
        exact ⟨h1, h2⟩
      | arrowDown =>
        rw [hdown]
        constructor
        · have := Int.emod_nonneg (index + 1) (by omega : (count : Int) ≠ 0)
          omega
        · have := Int.emod_lt_of_pos (index + 1) (by omega : (0 : Int) < count)
          omega
      | arrowUp =>
        rw [hup]
        by_cases hm : index = -1
        · rw [if_pos hm]
          constructor <;> omega
        · rw [if_neg hm]
          constructor
          · have := Int.emod_nonneg (index - 1 + (count : Int))
              (by omega : (count : Int) ≠ 0)
            omega
          · have := Int.emod_lt_of_pos (index - 1 + (count : Int))
              (by omega : (0 : Int) < count)
            omega
      | tab shift =>
        cases shift
        · rw [htabf, hdown]
          constructor
          · have := Int.emod_nonneg (index + 1) (by omega : (count : Int) ≠ 0)
            omega
          · have := Int.emod_lt_of_pos (index + 1)
              (by omega : (0 : Int) < count)
            omega
        · rw [htabt, hup]
          by_cases hm : index = -1
          · rw [if_pos hm]
            constructor <;> omega
          · rw [if_neg hm]
            constructor
            · have := Int.emod_nonneg (index - 1 + (count : Int))
                (by omega : (count : Int) ≠ 0)
              omega
            · have := Int.emod_lt_of_pos (index - 1 + (count : Int))
                (by omega : (0 : Int) < count)
              omega
    · rintro h0 (rfl | rfl)
      · exact hdown
      · rw [htabf, hdown]
    · rintro h0 (rfl | rfl)
      · exact hup
      · rw [htabt, hup]

/-- Witness for C3: four items, index 1, ArrowDown. -/
theorem claim3_witness :
    ((-1 : Int) ≤ 1 ∧ (1 : Int) ≤ (4 : Nat) - 1)
    ∧ ((-1 ≤ onSearchKeyDown 4 1 NavKey.arrowDown
        ∧ onSearchKeyDown 4 1 NavKey.arrowDown ≤ ((4 : Nat) : Int) - 1)
      ∧ ((4 : Nat) = 0 → onSearchKeyDown 4 1 NavKey.arrowDown = 1)
      ∧ (0 < (4 : Nat) →
          (NavKey.arrowDown = NavKey.arrowDown
            ∨ NavKey.arrowDown = NavKey.tab false) →
          onSearchKeyDown 4 1 NavKey.arrowDown = (1 + 1) % ((4 : Nat) : Int))
      ∧ (0 < (4 : Nat) →
          (NavKey.arrowDown = NavKey.arrowUp
            ∨ NavKey.arrowDown = NavKey.tab true) →
          onSearchKeyDown 4 1 NavKey.arrowDown
            = if (1 : Int) = -1 then ((4 : Nat) : Int) - 1
              else (1 - 1 + ((4 : Nat) : Int)) % ((4 : Nat) : Int))) := by
  exact ⟨⟨by decide, by decide⟩,
    claim3_amended 4 1 NavKey.arrowDown (by decide) (by decide)⟩

/-- C6, counterexample. On the query dispatch path an empty results markup
is silently ignored: the continuation raises no error and renders nothing,
contradicting the claim that both paths raise an explicit error. -/
theorem claim6_counterexample :
    (getSearchResultsThen sampleEnv "" false sampleState).2 = none
    ∧ (getSearchResultsThen sampleEnv "" false sampleState).1 = sampleState := by
  exact ⟨rfl, rfl⟩

/-- C6, amended. The reset / empty-state path raises the explicit error
`No empty section markup found` whenever the expected section element is
absent from the response; the query dispatch path, in contrast, silently
ignores an empty results markup (no error, no render). -/
theorem claim6_amended :
    (∀ (env : Env) (ab : Bool) (h : Nat) (s : PState),
        env.parsedEmptySection = none →
        (resetSearchRun env ab h s).2 = some "No empty section markup found")
    ∧ (∀ (env : Env) (ab : Bool) (s : PState),
        getSearchResultsThen env "" ab s = (s, none)) := by
  constructor
  · intro env ab h s hnone
    simp [resetSearchRun, hnone]
  · intro env ab s
    simp [getSearchResultsThen]

/-- Witness for C6 on the concrete environment whose empty-state response
lacks the expected section element. -/
theorem claim6_witness :
    (sampleEnv.parsedEmptySection = none)
    ∧ (resetSearchRun sampleEnv false 0 sampleState).2
        = some "No empty section markup found" := by
  exact ⟨rfl, claim6_amended.1 sampleEnv false 0 sampleState rfl⟩

/-- C7, counterexample. With an empty parsed category list the predictive
component's `#setupPlaceholderAnimation` returns before touching the
input, so the visible placeholder stays at the original attribute value
(`"Search"`) and is not the computed fixed placeholder string (`"Find"`),
contradicting the claim for the predictive-search component. -/
theorem claim7_counterexample :
    (setupPlaceholderAnimation "Find" (getPlaceholderCategories (some []) [])
        false 0 sampleState).2.1.placeholderText = "Search"
    ∧ (setupPlaceholderAnimation "Find" (getPlaceholderCategories (some []) [])
        false 0 sampleState).1.pfx = "Find"
    ∧ ("Search" : String) ≠ "Find" := by
  exact ⟨rfl, rfl, by decide⟩

/-- C7, amended. With an empty parsed category list, the header component
renders the fixed (trimmed) placeholder string and never schedules a
timer, while the predictive-search component leaves its state — including
the original placeholder attribute — unchanged and never schedules a
timer; moreover its resume entry point never schedules a timer while the
category list is empty. -/
theorem claim7_amended :
    (∀ (parsedCats : Option (List String)) (pfxRaw : String) (rm : Bool)
        (h : Nat) (t0 : String),
        getCategories parsedCats = [] →
        (headerConnected parsedCats pfxRaw rm h t0).1.text = jsTrim pfxRaw
        ∧ (headerConnected parsedCats pfxRaw rm h t0).1.timeout = none
        ∧ (headerConnected parsedCats pfxRaw rm h t0).2 = false)
    ∧ (∀ (dataPfx : String) (cats : List String) (rm : Bool) (h : Nat)
        (s : PState), cats = [] →
        (setupPlaceholderAnimation dataPfx cats rm h s).2.1 = s
        ∧ (setupPlaceholderAnimation dataPfx cats rm h s).2.2 = false)
    ∧ (∀ (cfg : PCfg) (h : Nat) (s : PState), cfg.categories = [] →
        (resumePlaceholderAnimation cfg h s).2 = false) := by
  refine ⟨?_, ?_, ?_⟩
  · intro parsedCats pfxRaw rm h t0 hcats
    simp [headerConnected, hcats]
  · intro dataPfx cats rm h s hcats
    subst hcats
    simp [setupPlaceholderAnimation]
  · intro cfg h s hcats
    unfold resumePlaceholderAnimation
    by_cases hrm : cfg.reducedMotion
    · simp [hrm]
    · have hsa : shouldAnimatePlaceholder cfg s = false := by
        simp [shouldAnimatePlaceholder, hcats]
      simp [hrm, hsa]

/-- Witness for C7 with an absent categories attribute and prefix
`"Find me "`. -/
theorem claim7_witness :
    (getCategories none = [])
    ∧ ((headerConnected none "Find me " false 0 "x").1.text
        = jsTrim "Find me "
      ∧ (headerConnected none "Find me " false 0 "x").1.timeout = none
      ∧ (headerConnected none "Find me " false 0 "x").2 = false) := by
  exact ⟨rfl, claim7_amended.1 none "Find me " false 0 "x" rfl⟩

/-- A concrete predictive-search state whose placeholder timer is pending
while the input is focused. -/
def timerState : PState :=
  { sampleState with timeout := some 3, liveTimers := 1, focused := true }

/-- A pending `pausePlaceholderAnimation` clears the timer and never
schedules one. -/
theorem pause_clears_timer (cfg : PCfg) (s : PState)
    (hs : s.timeout.isSome = true) :
    (pausePlaceholderAnimation cfg s).timeout = none
    ∧ (pausePlaceholderAnimation cfg s).liveTimers = s.liveTimers - 1 := by
  cases hst : s.timeout with
  | none => rw [hst] at hs; cases hs
  | some t =>
    unfold pausePlaceholderAnimation stopPlaceholderAnimation
    rw [hst]
    dsimp only
    split_ifs
    · exact ⟨rfl, rfl⟩
    · exact ⟨rfl, rfl⟩

/-- C8, counterexample. In the predictive-search component, calling
`#resumePlaceholderAnimation` while a timer handle is pending is not
always a no-op: when the animation is no longer eligible (here the input
is focused) the call pauses the engine, clearing the pending timer and
restoring the original placeholder. -/
theorem claim8_counterexample :
    timerState.timeout.isSome = true
    ∧ (resumePlaceholderAnimation ⟨false, ["aa", "bb"], "p", "orig"⟩ 9
        timerState).1 ≠ timerState := by
  exact ⟨rfl, by decide⟩

/-- C8, amended. Resume never creates a second concurrent timer: with a
timer pending, the header engine's resume is exactly a no-op, and the
predictive engine's resume schedules no new timer and either leaves the
state unchanged or only cancels the pending timer — so at most one
pending timer exists per engine at any time. -/
theorem claim8_amended :
    (∀ (cats : List String) (pfx : String) (h : Nat) (s : HState),
        s.timeout.isSome = true → headerResume cats pfx h s = (s, false))
    ∧ (∀ (cfg : PCfg) (h : Nat) (s : PState), s.timeout.isSome = true →
        (resumePlaceholderAnimation cfg h s).2 = false
        ∧ ((resumePlaceholderAnimation cfg h s).1 = s
            ∨ (resumePlaceholderAnimation cfg h s).1.timeout = none)
        ∧ (resumePlaceholderAnimation cfg h s).1.liveTimers ≤ s.liveTimers) := by
  constructor
  · intro cats pfx h s hs
    simp [headerResume, hs]
  · intro cfg h s hs
    unfold resumePlaceholderAnimation
    by_cases hrm : cfg.reducedMotion
    · simp [hrm]
    · rw [if_neg hrm]
      by_cases hsa : shouldAnimatePlaceholder cfg s = true
      · rw [if_neg (by simp [hsa]), if_pos hs]
        exact ⟨rfl, Or.inl rfl, le_refl _⟩
      · rw [if_pos (by simpa using hsa)]
        obtain ⟨hto, hlt⟩ := pause_clears_timer cfg s hs
        exact ⟨rfl, Or.inr hto, by dsimp only; omega⟩

/-- Witness for C8: a header state and a predictive state, each with a
pending timer handle. -/
theorem claim8_witness :
    ((⟨⟨0, 0, false⟩, some 2, 1, "t"⟩ : HState).timeout.isSome = true
      ∧ headerResume ["a", "b"] "p" 7 ⟨⟨0, 0, false⟩, some 2, 1, "t"⟩
          = (⟨⟨0, 0, false⟩, some 2, 1, "t"⟩, false))
    ∧ (timerState.timeout.isSome = true
      ∧ (resumePlaceholderAnimation ⟨true, [], "", ""⟩ 0 timerState).2
          = false) := by
  exact ⟨⟨rfl, claim8_amended.1 ["a", "b"] "p" 7 _ rfl⟩,
    ⟨rfl, (claim8_amended.2 ⟨true, [], "", ""⟩ 0 timerState rfl).1⟩⟩

/-- C10. An input event whose `inputType` is absent or empty is ignored by
the debounced `search` handler: no query is dispatched, the reset path is
not run, and the state — selection index and reset-button visibility
included — is untouched, whatever the current search term. -/
theorem claim10_non_text_input_ignored (s : PState) (it : Option String)
    (h : it = none ∨ it = some "") :
    search it s = (s, SearchEffect.noop) := by
  rcases h with rfl | rfl
  · rfl
  · rfl

/-- Witness for C10 at a concrete state with an absent `inputType`. -/
theorem claim10_witness :
    ((none : Option String) = none ∨ (none : Option String) = some "")
    ∧ search none sampleState = (sampleState, SearchEffect.noop) :=
  ⟨Or.inl rfl, claim10_non_text_input_ignored sampleState none (Or.inl rfl)⟩

/-- The rendered state named by C9: results subtree content, search term,
reset-button visibility, effective selection index, and placeholder state
(animation triple, placeholder text, pending timer handle). -/
def resetObservables (s : PState) :
    String × String × Bool × Int × Anim × String × Option Nat :=
  (s.resultsMarkup, s.searchValue, s.resetButtonHidden, s.selectedIndex,
   s.anim, s.placeholderText, s.timeout)

/-- C9. `resetSearch()` (public entry point, default `keepFocus = true`,
each run completing unsuperseded) is idempotent on the rendered empty
state: running it a second time leaves the results subtree, search term,
reset-button visibility, selection index, and placeholder state exactly as
the first run left them — in every environment, including the error path
(missing empty-section markup) and the early-return path (recently-viewed
markup absent). -/
theorem claim9_reset_idempotent (env : Env) (h1 h2 : Nat) (s : PState) :
    resetObservables
        (resetSearch env false h2 true (resetSearch env false h1 true s).1).1
      = resetObservables (resetSearch env false h1 true s).1 := by
  by_cases hrm : env.cfg.reducedMotion <;>
    cases hpe : env.parsedEmptySection <;>
      by_cases hvp : 0 < env.viewedProducts.length <;>
        cases hrv : env.recentlyViewedMarkup <;>
          by_cases hrc : s.resultCount = 0 <;>
            cases hst : s.timeout <;>
              simp [resetSearch, resetSearchRun, setCurrentIndex,
                applyEmptyState, resumePlaceholderAnimation,
                pausePlaceholderAnimation, stopPlaceholderAnimation,
                resetPlaceholderAnimation, shouldAnimatePlaceholder,
                resetObservables, hrm, hpe, hvp, hrv, hrc, hst] <;>
                split_ifs <;> simp_all
